import Mathlib

/-!
Shallow embedding of the BSD peer-tracker subsystem (caller liveness
verification): `bsdTracker`, `bsdWatcher`, and the kevent dispatch loop
`receiveKevents`.

Modelling choices:
* The kqueue file descriptor and the Go `context.Context` collapse to a
  single `ctxCancelled` flag: `bsdTracker.Close` cancels the context, and
  `NewWatcher` / the dispatch loop only ever consult `ctx.Err() != nil`.
* Each `done` channel (`chan struct{}`) is identified by a natural number
  allocated from `nextSignal`; `close(done)` is modelled by inserting the
  channel id into the `fired` list.  A `select` on `<-done` succeeds
  exactly when the id is in `fired`.
* `unix.Kevent` registration calls are external: their success or failure
  is an explicit boolean input, and the number of successful registrations
  is counted in `kernelRegs` (the "instrumented fake notifier" of the
  spec's testable properties).
* `time.Sleep(safetyDelay)` is modelled by the number of milliseconds the
  call sleeps before answering (`sleptMillis`), since real time is not
  otherwise observable.
-/

/-- Errors produced by the subsystem, one constructor per `errors.New` /
`fmt.Errorf` site in the source; the spec's error taxonomy names them
`InvalidCallerError`, `ClosedError`, `WatchCreationError`,
`NotWatchedError`, `CallerExitedError`. -/
inductive PTError where
  /-- "could not resolve caller information" (`InvalidCallerError`) -/
  | invalidCaller
  /-- "tracker has been closed" (`ClosedError`) -/
  | trackerClosed
  /-- "could not create watcher: %w" (`WatchCreationError`) -/
  | watchCreation
  /-- "caller is no longer being watched" (`NotWatchedError`) -/
  | notWatched
  /-- "caller exit detected via kevent notification" (`CallerExitedError`) -/
  | callerExited
  deriving DecidableEq

/-- The error message attached at each `errors.New` site. -/
def ptErrorMessage : PTError → String
  | .invalidCaller => "could not resolve caller information"
  | .trackerClosed => "tracker has been closed"
  | .watchCreation => "could not create watcher"
  | .notWatched => "caller is no longer being watched"
  | .callerExited => "caller exit detected via kevent notification"

/-- `CallerInfo`: the caller description handed to `NewWatcher`; the
tracker uses only the `PID` field (an `int32` in the source, embedded as
an unbounded integer since `int(info.PID)` is lossless). -/
structure CallerInfo where
  PID : Int
  deriving DecidableEq

/-- `unix.EVFILT_PROC` (darwin/BSD value). -/
def EVFILT_PROC : Int := -5

/-- `unix.NOTE_EXIT` (bit 31 of the fflags word). -/
def NOTE_EXIT : Nat := 0x80000000

/-- The fields of `unix.Kevent_t` read by the dispatch loop: `Ident` is a
`uint64`, `Filter` an `int16`, `Fflags` a `uint32`. -/
structure Kevent_t where
  Ident : Nat
  Filter : Int
  Fflags : Nat
  deriving DecidableEq

/-- `util.CheckedCast[int]` applied to a `uint64` ident (the helper lives
outside the visible sources; modelled as the checked numeric conversion
its callers rely on): fails exactly when the value does not fit a signed
64-bit `int`. -/
def checkedCastInt (n : Nat) : Option Int :=
  if n ≤ 2 ^ 63 - 1 then some (n : Int) else none

/-- State of a `bsdTracker`: `ctxCancelled` is `ctx.Err() != nil`,
`watchedPIDs` is the `map[int]chan struct{}` as an association list,
`nextSignal` allocates fresh channel ids, `fired` records closed channels,
and `kernelRegs` counts successful `addKeventForWatcher` registrations. -/
structure TrackerState where
  ctxCancelled : Bool
  watchedPIDs : List (Int × Nat)
  nextSignal : Nat
  fired : List Nat
  kernelRegs : Nat
  deriving DecidableEq

/-- The tracker state produced by `newTracker` (empty watch map, live
context). -/
def newTracker : TrackerState :=
  { ctxCancelled := false, watchedPIDs := [], nextSignal := 0, fired := [], kernelRegs := 0 }

/-- `bsdTracker.Close`: cancels the dispatch-loop context (the kqueue fd
close is visible only through the dispatch loop's error handling). -/
def trackerClose (s : TrackerState) : TrackerState :=
  { s with ctxCancelled := true }

/-- Go map read `b.watchedPIDs[pid]`. -/
def lookupPID : List (Int × Nat) → Int → Option Nat
  | [], _ => none
  | (p, c) :: rest, q => if p = q then some c else lookupPID rest q

/-- Go map `delete(b.watchedPIDs, pid)`. -/
def removePID : List (Int × Nat) → Int → List (Int × Nat)
  | [], _ => []
  | (p, c) :: rest, q => if p = q then removePID rest q else (p, c) :: removePID rest q

/-- State of a `bsdWatcher`: the `closed` bit, the shared `done` channel
it references, and the caller's PID. -/
structure WatcherState where
  closed : Bool
  done : Nat
  pid : Int
  deriving DecidableEq

/-- `newBSDWatcher`: a fresh watcher has its `closed` bit unset (Go zero
value) and references the shared `done` channel. -/
def newBSDWatcher (info : CallerInfo) (done : Nat) : WatcherState :=
  { closed := false, done := done, pid := info.PID }

/-- `bsdTracker.NewWatcher`.  `keventOk` is the outcome of the external
`unix.Kevent` registration performed by `addKeventForWatcher` when no
entry for the PID exists yet.  Error returns leave the tracker state
untouched, exactly as the source returns before any map write. -/
def NewWatcher (s : TrackerState) (info : CallerInfo) (keventOk : Bool) :
    Except PTError (WatcherState × TrackerState) :=
  if info.PID = 0 then .error .invalidCaller
  else if s.ctxCancelled then .error .trackerClosed
  else
    match lookupPID s.watchedPIDs info.PID with
    | some done => .ok (newBSDWatcher info done, s)
    | none =>
      if keventOk then
        .ok (newBSDWatcher info s.nextSignal,
          { s with
              watchedPIDs := (info.PID, s.nextSignal) :: s.watchedPIDs,
              nextSignal := s.nextSignal + 1,
              kernelRegs := s.kernelRegs + 1 })
      else .error .watchCreation

/-- `bsdWatcher.Close`: sets the `closed` bit under the watcher's own
lock; it does not touch the tracker. -/
def watcherClose (w : WatcherState) : WatcherState :=
  { w with closed := true }

/-- `safetyDelay = 250 * time.Millisecond`. -/
def safetyDelayMillis : Nat := 250

/-- What one `bsdWatcher.IsAlive` call did: how long it slept, and the
error it returned (`none` is the nil error). -/
structure IsAliveResult where
  sleptMillis : Nat
  result : Option PTError
  deriving DecidableEq

/-- `bsdWatcher.IsAlive`, as a function of the set of channels that have
fired by the time the post-sleep `select` runs: a closed watcher fails
immediately without sleeping; otherwise the call sleeps for the safety
delay and then reports `callerExited` exactly when the shared `done`
channel has been closed. -/
def IsAlive (w : WatcherState) (fired : List Nat) : IsAliveResult :=
  if w.closed then { sleptMillis := 0, result := some .notWatched }
  else if w.done ∈ fired then
    { sleptMillis := safetyDelayMillis, result := some .callerExited }
  else { sleptMillis := safetyDelayMillis, result := none }

/-- The dispatch loop's per-event work inside `receiveKevents`: on an
`EVFILT_PROC` event carrying `NOTE_EXIT`, cast the ident (skipping the
event on cast failure, as the source logs and continues), and if the PID
is watched, close its channel and delete the map entry. -/
def processKevent (s : TrackerState) (ev : Kevent_t) : TrackerState :=
  if ev.Filter = EVFILT_PROC ∧ 0 < ev.Fflags &&& NOTE_EXIT then
    match checkedCastInt ev.Ident with
    | none => s
    | some pid =>
      match lookupPID s.watchedPIDs pid with
      | some done =>
        { s with fired := done :: s.fired, watchedPIDs := removePID s.watchedPIDs pid }
      | none => s
  else s

/-- One delivered batch (`receive[:num]`) processed under the tracker
lock. -/
def processKevents (s : TrackerState) (evs : List Kevent_t) : TrackerState :=
  evs.foldl processKevent s

/-- The errno values `KQUEUE(2)` documents for the wait call. -/
inductive Errno where
  | EINTR | EBADF | EACCES | EFAULT | EINVAL | ENOENT | ENOMEM | ESRCH
  deriving DecidableEq

/-- Result of one blocking `unix.Kevent` wait in the dispatch loop. -/
inductive KWait where
  | events (evs : List Kevent_t)
  | fail (e : Errno)
  deriving DecidableEq

/-- What one iteration of `receiveKevents` does with that result. -/
inductive LoopOutcome where
  /-- the loop function returns normally (shutdown) -/
  | returned
  /-- `continue`: retry the wait with no other side effect -/
  | retried
  /-- process-level fatal abort -/
  | fatalAbort
  /-- the batch was dispatched; the loop continues with the new state -/
  | dispatched (s : TrackerState)
  deriving DecidableEq

/-- One iteration of `receiveKevents`: on a wait error, first check the
context (shutdown), then retry on `EINTR`, otherwise abort the process;
on delivered events, process the batch under the lock. -/
def receiveKeventsIter (s : TrackerState) (r : KWait) : LoopOutcome :=
  match r with
  | .fail e =>
    if s.ctxCancelled then .returned
    else if e = .EINTR then .retried
    else .fatalAbort
  | .events evs => .dispatched (processKevents s evs)

/-- Combined state of one tracker and the watchers it has handed out
(watcher `i` is `watchers.get? i`). -/
structure SysState where
  tracker : TrackerState
  watchers : List WatcherState
  deriving DecidableEq

/-- The operations that can act on a `SysState`. -/
inductive SysOp where
  | opNewWatcher (info : CallerInfo) (keventOk : Bool)
  | opWatcherClose (i : Nat)
  | opKeventBatch (evs : List Kevent_t)
  | opTrackerClose
  deriving DecidableEq

/-- Apply a function to the watcher at index `i`. -/
def modifyAt (f : WatcherState → WatcherState) : List WatcherState → Nat → List WatcherState
  | [], _ => []
  | w :: ws, 0 => f w :: ws
  | w :: ws, n + 1 => w :: modifyAt f ws n

/-- One step of the combined system: a failed `NewWatcher` leaves the
state unchanged (the source returns before any mutation); a successful
one appends the new watcher; `bsdWatcher.Close` touches only its own
watcher; a kevent batch and `bsdTracker.Close` touch only the tracker. -/
def sysStep (s : SysState) : SysOp → SysState
  | .opNewWatcher info k =>
    match NewWatcher s.tracker info k with
    | .ok (w, t) => { tracker := t, watchers := s.watchers ++ [w] }
    | .error _ => s
  | .opWatcherClose i => { s with watchers := modifyAt watcherClose s.watchers i }
  | .opKeventBatch evs => { s with tracker := processKevents s.tracker evs }
  | .opTrackerClose => { s with tracker := trackerClose s.tracker }

/-- Run a sequence of operations. -/
def sysRun (s : SysState) : List SysOp → SysState
  | [] => s
  | op :: ops => sysRun (sysStep s op) ops

/-- `ev` is a well-formed exit notification for `pid`: process filter,
`NOTE_EXIT` flag set, and an ident that survives the checked cast. -/
def isExitEventFor (ev : Kevent_t) (pid : Int) : Prop :=
  ev.Filter = EVFILT_PROC ∧ 0 < ev.Fflags &&& NOTE_EXIT ∧ checkedCastInt ev.Ident = some pid

instance (ev : Kevent_t) (pid : Int) : Decidable (isExitEventFor ev pid) := by
  unfold isExitEventFor; infer_instance

/-- The registry's key-uniqueness invariant: at most one entry per PID. -/
def keysNodup (l : List (Int × Nat)) : Prop :=
  (l.map Prod.fst).Nodup

/-! ### Association-list lemmas for the registry map -/

theorem lookupPID_cons_self (l : List (Int × Nat)) (p : Int) (c : Nat) :
    lookupPID ((p, c) :: l) p = some c := by
  simp [lookupPID]

theorem lookupPID_cons_ne (l : List (Int × Nat)) (p q : Int) (c : Nat) (h : p ≠ q) :
    lookupPID ((p, c) :: l) q = lookupPID l q := by
  simp [lookupPID, h]

theorem lookupPID_removePID_self (l : List (Int × Nat)) (p : Int) :
    lookupPID (removePID l p) p = none := by
  induction l with
  | nil => rfl
  | cons pc rest ih =>
    obtain ⟨q, c⟩ := pc
    by_cases h : q = p
    · simpa [removePID, h] using ih
    · simpa [removePID, lookupPID, h] using ih

theorem lookupPID_removePID_ne (l : List (Int × Nat)) (p q : Int) (h : p ≠ q) :
    lookupPID (removePID l q) p = lookupPID l p := by
  induction l with
  | nil => rfl
  | cons pc rest ih =>
    obtain ⟨r, c⟩ := pc
    by_cases hr : r = q
    · subst hr
      have hrp : r ≠ p := fun hrp => h hrp.symm
      simpa [removePID, lookupPID, hrp] using ih
    · by_cases hp : r = p
      · subst hp
        simp [removePID, lookupPID, hr]
      · simpa [removePID, lookupPID, hr, hp] using ih

theorem lookupPID_eq_none (l : List (Int × Nat)) (p : Int) :
    lookupPID l p = none ↔ p ∉ l.map Prod.fst := by
  induction l with
  | nil => simp [lookupPID]
  | cons pc rest ih =>
    obtain ⟨q, c⟩ := pc
    by_cases h : q = p
    · simp [lookupPID, h]
    · have h' : ¬p = q := fun hh => h hh.symm
      simp [lookupPID, h, h', ih]

theorem removePID_keys_sublist (l : List (Int × Nat)) (q : Int) :
    ((removePID l q).map Prod.fst).Sublist (l.map Prod.fst) := by
  induction l with
  | nil => simp [removePID]
  | cons pc rest ih =>
    obtain ⟨r, c⟩ := pc
    by_cases h : r = q
    · simpa [removePID, h] using ih.cons r
    · simpa [removePID, h] using ih.cons₂ r

/-! ### Claim theorems: IsAlive behaviour (C1, C10) -/

/-- C1: for every Watcher that has not been closed, `IsAlive` sleeps for
the fixed safety delay and then returns `CallerExitedError` if the shared
exit signal has fired by the post-sleep check, and the nil error if it
has not. -/
theorem isAlive_open_watcher (w : WatcherState) (fired : List Nat)
    (h : w.closed = false) :
    IsAlive w fired =
      { sleptMillis := safetyDelayMillis,
        result := if w.done ∈ fired then some PTError.callerExited else none } := by
  by_cases hm : w.done ∈ fired <;> simp [IsAlive, h, hm]

theorem isAlive_open_watcher_witness :
    IsAlive { closed := false, done := 3, pid := 9 } [3] =
      { sleptMillis := safetyDelayMillis,
        result := if 3 ∈ [3] then some PTError.callerExited else none } :=
  isAlive_open_watcher { closed := false, done := 3, pid := 9 } [3] rfl

/-- C10: if a Watcher has been closed, `IsAlive` returns
`NotWatchedError` immediately, performing no safety-delay sleep; the
sleep happens only on the not-closed path. -/
theorem isAlive_closed_no_sleep (w : WatcherState) (fired : List Nat)
    (h : w.closed = true) :
    IsAlive w fired = { sleptMillis := 0, result := some PTError.notWatched } := by
  simp [IsAlive, h]

theorem isAlive_closed_no_sleep_witness :
    IsAlive { closed := true, done := 3, pid := 9 } [3] =
      { sleptMillis := 0, result := some PTError.notWatched } :=
  isAlive_closed_no_sleep { closed := true, done := 3, pid := 9 } [3] rfl

/-! ### Claim theorem: dispatch-loop error handling (C3) -/

/-- C3: for every error from the dispatch loop's blocking wait: with the
Tracker's context already cancelled the loop returns normally; on `EINTR`
with a live context it retries (with no other side effect — the outcome
carries no state change); on any other error with a live context it
triggers a process-level fatal abort. -/
theorem receiveKevents_error_handling (s : TrackerState) (e : Errno) :
    (s.ctxCancelled = true → receiveKeventsIter s (KWait.fail e) = LoopOutcome.returned) ∧
    (s.ctxCancelled = false → e = Errno.EINTR →
      receiveKeventsIter s (KWait.fail e) = LoopOutcome.retried) ∧
    (s.ctxCancelled = false → e ≠ Errno.EINTR →
      receiveKeventsIter s (KWait.fail e) = LoopOutcome.fatalAbort) :=
  ⟨fun h => by simp [receiveKeventsIter, h],
   fun h he => by simp [receiveKeventsIter, h, he],
   fun h he => by simp [receiveKeventsIter, h, he]⟩

theorem receiveKevents_error_handling_witness :
    receiveKeventsIter (trackerClose newTracker) (KWait.fail Errno.EINTR) =
      LoopOutcome.returned ∧
    receiveKeventsIter newTracker (KWait.fail Errno.EINTR) = LoopOutcome.retried ∧
    receiveKeventsIter newTracker (KWait.fail Errno.EBADF) = LoopOutcome.fatalAbort :=
  ⟨(receiveKevents_error_handling (trackerClose newTracker) Errno.EINTR).1 rfl,
   (receiveKevents_error_handling newTracker Errno.EINTR).2.1 rfl rfl,
   (receiveKevents_error_handling newTracker Errno.EBADF).2.2 rfl (by decide)⟩

/-! ### Claim theorems: PID validation (C6) -/

/-- C6 counterexample: at PID `-1` (a non-positive PID) `NewWatcher` does
not fail with `InvalidCallerError`: it hands out a Watcher, performs a
kernel-level registration (the registration count rises from 0 to 1),
and adds a Registry entry for `-1`.  Only `PID = 0` is rejected. -/
theorem newWatcher_negative_pid_accepted :
    NewWatcher newTracker { PID := -1 } true =
      Except.ok (newBSDWatcher { PID := -1 } 0,
        { ctxCancelled := false, watchedPIDs := [(-1, 0)], nextSignal := 1,
          fired := [], kernelRegs := 1 }) ∧
    newTracker.kernelRegs = 0 :=
  ⟨rfl, rfl⟩

/-- C6 (amended): for every CallerInfo with `PID = 0`, `NewWatcher` fails
with `InvalidCallerError`, returns no Watcher, creates no kernel-level
watch, and leaves the Registry unchanged; PIDs other than 0 (negative
ones included) are not rejected by this validity check. -/
theorem newWatcher_zero_pid_rejected (s : SysState) (info : CallerInfo) (k : Bool)
    (h : info.PID = 0) :
    NewWatcher s.tracker info k = Except.error PTError.invalidCaller ∧
    sysStep s (SysOp.opNewWatcher info k) = s := by
  have h1 : NewWatcher s.tracker info k = Except.error PTError.invalidCaller := by
    simp [NewWatcher, h]
  exact ⟨h1, by simp [sysStep, h1]⟩

theorem newWatcher_zero_pid_rejected_witness :
    NewWatcher newTracker { PID := 0 } true = Except.error PTError.invalidCaller ∧
    sysStep { tracker := newTracker, watchers := [] }
      (SysOp.opNewWatcher { PID := 0 } true) =
      { tracker := newTracker, watchers := [] } :=
  newWatcher_zero_pid_rejected { tracker := newTracker, watchers := [] }
    { PID := 0 } true rfl

/-! ### NewWatcher inversion and context monotonicity -/

/-- Inverting a successful `NewWatcher`: the watcher starts not closed,
carries the caller's PID, its `done` channel is the registry entry for
that PID in the resulting state, and neither the context flag nor the
fired set changes. -/
theorem newWatcher_ok_inv {s : TrackerState} {info : CallerInfo} {k : Bool}
    {w : WatcherState} {t : TrackerState}
    (h : NewWatcher s info k = Except.ok (w, t)) :
    w.closed = false ∧ w.pid = info.PID ∧
    lookupPID t.watchedPIDs info.PID = some w.done ∧
    t.ctxCancelled = s.ctxCancelled ∧ t.fired = s.fired ∧
    (t.watchedPIDs = s.watchedPIDs ∨
      (lookupPID s.watchedPIDs info.PID = none ∧
        t.watchedPIDs = (info.PID, w.done) :: s.watchedPIDs)) := by
  unfold NewWatcher at h
  split at h
  · exact absurd h (by simp)
  · split at h
    · exact absurd h (by simp)
    · revert h
      split
      · intro h
        rename_i done hdone
        cases h
        exact ⟨rfl, rfl, hdone, rfl, rfl, Or.inl rfl⟩
      · rename_i hnone
        split
        · intro h
          cases h
          exact ⟨rfl, rfl, lookupPID_cons_self _ _ _, rfl, rfl, Or.inr ⟨hnone, rfl⟩⟩
        · intro h
          exact absurd h (by simp)

/-- A failed `NewWatcher` leaves the system state unchanged. -/
theorem sysStep_newWatcher_error {s : SysState} {info : CallerInfo} {k : Bool}
    {e : PTError} (h : NewWatcher s.tracker info k = Except.error e) :
    sysStep s (SysOp.opNewWatcher info k) = s := by
  simp [sysStep, h]

/-- No operation un-cancels the Tracker's context. -/
theorem sysStep_ctxCancelled (s : SysState) (op : SysOp)
    (h : s.tracker.ctxCancelled = true) :
    (sysStep s op).tracker.ctxCancelled = true := by
  cases op with
  | opNewWatcher info k =>
    simp only [sysStep]
    cases hn : NewWatcher s.tracker info k with
    | ok p =>
      obtain ⟨w, t⟩ := p
      simpa [(newWatcher_ok_inv hn).2.2.2.1] using h
    | error e => exact h
  | opWatcherClose i => exact h
  | opKeventBatch evs =>
    have hone : ∀ (t : TrackerState) (ev : Kevent_t),
        (processKevent t ev).ctxCancelled = t.ctxCancelled := by
      intro t ev
      unfold processKevent
      split
      · split
        · rfl
        · split <;> rfl
      · rfl
    have : ∀ (evs : List Kevent_t) (t : TrackerState),
        (processKevents t evs).ctxCancelled = t.ctxCancelled := by
      intro evs
      induction evs with
      | nil => intro t; rfl
      | cons ev rest ih =>
        intro t
        simpa [processKevents, hone] using ih (processKevent t ev)
    simpa [sysStep, this] using h
  | opTrackerClose => rfl

theorem sysRun_ctxCancelled (s : SysState) (tr : List SysOp)
    (h : s.tracker.ctxCancelled = true) :
    (sysRun s tr).tracker.ctxCancelled = true := by
  induction tr generalizing s with
  | nil => exact h
  | cons op ops ih => exact ih _ (sysStep_ctxCancelled s op h)

/-- A cancelled context makes `NewWatcher` fail with `ClosedError` for
every non-zero PID. -/
theorem newWatcher_closed_tracker (s : TrackerState) (info : CallerInfo) (k : Bool)
    (h0 : info.PID ≠ 0) (h1 : s.ctxCancelled = true) :
    NewWatcher s info k = Except.error PTError.trackerClosed := by
  simp [NewWatcher, h0, h1]

/-! ### Claim theorem: Tracker close (C8) -/

/-- C8: once `Tracker.Close` has run, every later `NewWatcher` call with
a valid (non-zero) PID — no matter what other operations happen in
between — fails with `ClosedError` and leaves the Registry and the
kernel watches untouched (the system state is unchanged). -/
theorem newWatcher_after_tracker_close (s : SysState) (tr : List SysOp)
    (info : CallerInfo) (k : Bool) (h : info.PID ≠ 0) :
    NewWatcher (sysRun (sysStep s SysOp.opTrackerClose) tr).tracker info k =
      Except.error PTError.trackerClosed ∧
    sysStep (sysRun (sysStep s SysOp.opTrackerClose) tr) (SysOp.opNewWatcher info k) =
      sysRun (sysStep s SysOp.opTrackerClose) tr := by
  have hc : (sysRun (sysStep s SysOp.opTrackerClose) tr).tracker.ctxCancelled = true :=
    sysRun_ctxCancelled _ tr rfl
  have h1 := newWatcher_closed_tracker _ info k h hc
  exact ⟨h1, sysStep_newWatcher_error h1⟩

theorem newWatcher_after_tracker_close_witness :
    NewWatcher (sysRun (sysStep { tracker := newTracker, watchers := [] }
        SysOp.opTrackerClose) []).tracker { PID := 4 } true =
      Except.error PTError.trackerClosed ∧
    sysStep (sysRun (sysStep { tracker := newTracker, watchers := [] }
        SysOp.opTrackerClose) []) (SysOp.opNewWatcher { PID := 4 } true) =
      sysRun (sysStep { tracker := newTracker, watchers := [] } SysOp.opTrackerClose) [] :=
  newWatcher_after_tracker_close { tracker := newTracker, watchers := [] } []
    { PID := 4 } true (by decide)

/-! ### Claim theorem: registration failure (C9) -/

/-- C9: when no WatchEntry exists for the PID and the kernel-level
registration fails, `NewWatcher` returns `WatchCreationError` and no
Watcher, and the Registry is unchanged; a later `NewWatcher` for the same
PID attempts registration again (and, when the kernel call succeeds,
creates the entry and counts one more registration). -/
theorem newWatcher_registration_failure (s : SysState) (info : CallerInfo)
    (h0 : info.PID ≠ 0) (h1 : s.tracker.ctxCancelled = false)
    (h2 : lookupPID s.tracker.watchedPIDs info.PID = none) :
    NewWatcher s.tracker info false = Except.error PTError.watchCreation ∧
    sysStep s (SysOp.opNewWatcher info false) = s ∧
    NewWatcher s.tracker info true =
      Except.ok (newBSDWatcher info s.tracker.nextSignal,
        { s.tracker with
            watchedPIDs := (info.PID, s.tracker.nextSignal) :: s.tracker.watchedPIDs,
            nextSignal := s.tracker.nextSignal + 1,
            kernelRegs := s.tracker.kernelRegs + 1 }) := by
  have hf : NewWatcher s.tracker info false = Except.error PTError.watchCreation := by
    simp [NewWatcher, h0, h1, h2]
  exact ⟨hf, sysStep_newWatcher_error hf, by simp [NewWatcher, h0, h1, h2]⟩

theorem newWatcher_registration_failure_witness :
    NewWatcher newTracker { PID := 6 } false = Except.error PTError.watchCreation ∧
    sysStep { tracker := newTracker, watchers := [] }
      (SysOp.opNewWatcher { PID := 6 } false) =
      { tracker := newTracker, watchers := [] } ∧
    NewWatcher newTracker { PID := 6 } true =
      Except.ok (newBSDWatcher { PID := 6 } newTracker.nextSignal,
        { newTracker with
            watchedPIDs := (6, newTracker.nextSignal) :: newTracker.watchedPIDs,
            nextSignal := newTracker.nextSignal + 1,
            kernelRegs := newTracker.kernelRegs + 1 }) :=
  newWatcher_registration_failure { tracker := newTracker, watchers := [] }
    { PID := 6 } (by decide) rfl rfl

/-! ### Claim theorem: registration deduplication (C4) -/

/-- Repeated `NewWatcher` calls for one caller, each with a successful
kernel registration available, threading the tracker state through. -/
def iterNewWatcher (s : TrackerState) (info : CallerInfo) :
    Nat → Option (List WatcherState × TrackerState)
  | 0 => some ([], s)
  | n + 1 =>
    match NewWatcher s info true with
    | .ok (w, t) =>
      match iterNewWatcher t info n with
      | some (ws, t2) => some (w :: ws, t2)
      | none => none
    | .error _ => none

/-- When a WatchEntry already exists, `NewWatcher` reuses its channel and
changes nothing (in particular it performs no kernel registration). -/
theorem newWatcher_dedup (s : TrackerState) (info : CallerInfo) (k : Bool) (c : Nat)
    (h0 : info.PID ≠ 0) (h1 : s.ctxCancelled = false)
    (h2 : lookupPID s.watchedPIDs info.PID = some c) :
    NewWatcher s info k = Except.ok (newBSDWatcher info c, s) := by
  simp [NewWatcher, h0, h1, h2]

theorem iterNewWatcher_hit (info : CallerInfo) (c : Nat) (n : Nat) (s : TrackerState)
    (h0 : info.PID ≠ 0) (h1 : s.ctxCancelled = false)
    (h2 : lookupPID s.watchedPIDs info.PID = some c) :
    iterNewWatcher s info n = some (List.replicate n (newBSDWatcher info c), s) := by
  induction n with
  | zero => rfl
  | succ m ih =>
    simp [iterNewWatcher, newWatcher_dedup s info true c h0 h1 h2, ih,
      List.replicate_succ]

/-- C4: if a WatchEntry for the PID already exists, `NewWatcher` reuses
its exit signal and performs no kernel registration (the tracker state,
its registration count included, is returned unchanged); and any number
of successive `NewWatcher` calls for a PID not yet watched perform
exactly one kernel-level registration, with every returned Watcher
sharing the same exit signal. -/
theorem newWatcher_single_registration (s : TrackerState) (info : CallerInfo)
    (h0 : info.PID ≠ 0) (h1 : s.ctxCancelled = false) :
    (∀ c k, lookupPID s.watchedPIDs info.PID = some c →
      NewWatcher s info k = Except.ok (newBSDWatcher info c, s)) ∧
    (lookupPID s.watchedPIDs info.PID = none → ∀ n, ∃ ws t,
      iterNewWatcher s info (n + 1) = some (ws, t) ∧
      t.kernelRegs = s.kernelRegs + 1 ∧
      ∀ w ∈ ws, w.done = s.nextSignal) := by
  refine ⟨fun c k hc => newWatcher_dedup s info k c h0 h1 hc, fun hn n => ?_⟩
  have hfirst : NewWatcher s info true =
      Except.ok (newBSDWatcher info s.nextSignal,
        { s with
            watchedPIDs := (info.PID, s.nextSignal) :: s.watchedPIDs,
            nextSignal := s.nextSignal + 1,
            kernelRegs := s.kernelRegs + 1 }) := by
    simp [NewWatcher, h0, h1, hn]
  have hrest := iterNewWatcher_hit info s.nextSignal n
    { s with
        watchedPIDs := (info.PID, s.nextSignal) :: s.watchedPIDs,
        nextSignal := s.nextSignal + 1,
        kernelRegs := s.kernelRegs + 1 }
    h0 h1 (lookupPID_cons_self _ _ _)
  refine ⟨newBSDWatcher info s.nextSignal ::
      List.replicate n (newBSDWatcher info s.nextSignal),
    { s with
        watchedPIDs := (info.PID, s.nextSignal) :: s.watchedPIDs,
        nextSignal := s.nextSignal + 1,
        kernelRegs := s.kernelRegs + 1 },
    by simp [iterNewWatcher, hfirst, hrest], rfl, ?_⟩
  intro w hw
  rcases List.mem_cons.mp hw with h | h
  · subst h; rfl
  · rw [List.eq_of_mem_replicate h]; rfl

theorem newWatcher_single_registration_witness :
    ∃ ws t, iterNewWatcher newTracker { PID := 7 } 2 = some (ws, t) ∧
      t.kernelRegs = newTracker.kernelRegs + 1 ∧
      ∀ w ∈ ws, w.done = newTracker.nextSignal :=
  (newWatcher_single_registration newTracker { PID := 7 } (by decide) rfl).2 rfl 1

/-! ### Watcher lifecycle across traces (C2) -/

theorem modifyAt_get_self (f : WatcherState → WatcherState)
    (l : List WatcherState) (i : Nat) :
    (modifyAt f l i).get? i = (l.get? i).map f := by
  induction l generalizing i with
  | nil => cases i <;> rfl
  | cons w ws ih =>
    cases i with
    | zero => rfl
    | succ j => simpa [modifyAt] using ih j

theorem modifyAt_get_ne (f : WatcherState → WatcherState)
    (l : List WatcherState) (i j : Nat) (h : i ≠ j) :
    (modifyAt f l i).get? j = l.get? j := by
  induction l generalizing i j with
  | nil => cases i <;> rfl
  | cons w ws ih =>
    cases i with
    | zero =>
      cases j with
      | zero => exact absurd rfl h
      | succ j' => rfl
    | succ i' =>
      cases j with
      | zero => rfl
      | succ j' => simpa [modifyAt] using ih i' j' (fun hh => h (hh ▸ rfl))

theorem get_append_left {l l' : List WatcherState} {i : Nat} {w : WatcherState}
    (h : l.get? i = some w) : (l ++ l').get? i = some w := by
  induction l generalizing i with
  | nil => cases h
  | cons x xs ih =>
    cases i with
    | zero => exact h
    | succ j => exact ih h

/-- Once the watcher at index `i` has its closed bit set, every further
operation leaves it closed. -/
theorem sysStep_watcher_closed (s : SysState) (op : SysOp) (i : Nat)
    (w : WatcherState) (h : s.watchers.get? i = some w) (hc : w.closed = true) :
    ∃ w', (sysStep s op).watchers.get? i = some w' ∧ w'.closed = true := by
  cases op with
  | opNewWatcher info k =>
    simp only [sysStep]
    cases hn : NewWatcher s.tracker info k with
    | ok p =>
      obtain ⟨w0, t⟩ := p
      exact ⟨w, get_append_left h, hc⟩
    | error e => exact ⟨w, h, hc⟩
  | opWatcherClose j =>
    by_cases hij : j = i
    · subst hij
      exact ⟨watcherClose w,
        by simp only [sysStep]; rw [modifyAt_get_self, h]; rfl, rfl⟩
    · exact ⟨w,
        by simp only [sysStep]; rw [modifyAt_get_ne watcherClose s.watchers j i hij, h],
        hc⟩
  | opKeventBatch evs => exact ⟨w, h, hc⟩
  | opTrackerClose => exact ⟨w, h, hc⟩

theorem sysRun_watcher_closed (tr : List SysOp) (s : SysState) (i : Nat)
    (w : WatcherState) (h : s.watchers.get? i = some w) (hc : w.closed = true) :
    ∃ w', (sysRun s tr).watchers.get? i = some w' ∧ w'.closed = true := by
  induction tr generalizing s w with
  | nil => exact ⟨w, h, hc⟩
  | cons op ops ih =>
    obtain ⟨w', h', hc'⟩ := sysStep_watcher_closed s op i w h hc
    exact ih _ _ h' hc'

/-- C2: after `Watcher.Close`, every subsequent `IsAlive` on that watcher
returns `NotWatchedError`, whatever the exit signal or the real process
did, and no later operation in any trace un-closes the watcher. -/
theorem watcher_close_one_way (s : SysState) (i : Nat) (w : WatcherState)
    (tr : List SysOp) (fired : List Nat) (h : s.watchers.get? i = some w) :
    ∃ w', (sysRun (sysStep s (SysOp.opWatcherClose i)) tr).watchers.get? i = some w' ∧
      w'.closed = true ∧
      IsAlive w' fired = { sleptMillis := 0, result := some PTError.notWatched } := by
  have h1 : (sysStep s (SysOp.opWatcherClose i)).watchers.get? i =
      some (watcherClose w) := by
    simp only [sysStep]; rw [modifyAt_get_self, h]; rfl
  obtain ⟨w', hw', hc'⟩ := sysRun_watcher_closed tr _ i (watcherClose w) h1 rfl
  exact ⟨w', hw', hc', by simp [IsAlive, hc']⟩

theorem watcher_close_one_way_witness :
    ∃ w', (sysRun (sysStep
        { tracker := newTracker, watchers := [{ closed := false, done := 0, pid := 7 }] }
        (SysOp.opWatcherClose 0)) [SysOp.opWatcherClose 0]).watchers.get? 0 = some w' ∧
      w'.closed = true ∧
      IsAlive w' [0] = { sleptMillis := 0, result := some PTError.notWatched } :=
  watcher_close_one_way
    { tracker := newTracker, watchers := [{ closed := false, done := 0, pid := 7 }] }
    0 { closed := false, done := 0, pid := 7 } [SysOp.opWatcherClose 0] [0] rfl

/-! ### Exit-signal invariants (C5, C7) -/

/-- The relationship a live watcher keeps with the tracker: either the
Registry still maps its PID to its channel, or the channel has fired. -/
def trackerInv (t : TrackerState) (pid : Int) (c : Nat) : Prop :=
  lookupPID t.watchedPIDs pid = some c ∨ c ∈ t.fired

/-- `processKevent` either skips the event (wrong filter, no `NOTE_EXIT`,
cast failure, or unwatched PID) or fires and removes exactly the entry
matching the event's PID. -/
theorem processKevent_cases (t : TrackerState) (ev : Kevent_t) :
    processKevent t ev = t ∨
    ∃ pid d, checkedCastInt ev.Ident = some pid ∧
      lookupPID t.watchedPIDs pid = some d ∧
      processKevent t ev =
        { t with fired := d :: t.fired, watchedPIDs := removePID t.watchedPIDs pid } := by
  by_cases hcond : ev.Filter = EVFILT_PROC ∧ 0 < ev.Fflags &&& NOTE_EXIT
  · cases hcast : checkedCastInt ev.Ident with
    | none => left; simp [processKevent, hcond, hcast]
    | some pid =>
      cases hl : lookupPID t.watchedPIDs pid with
      | none => left; simp [processKevent, hcond, hcast, hl]
      | some d =>
        right
        exact ⟨pid, d, rfl, hl, by simp [processKevent, hcond, hcast, hl]⟩
  · left; simp [processKevent, hcond]

theorem processKevent_fired_mono (t : TrackerState) (ev : Kevent_t) (c : Nat)
    (h : c ∈ t.fired) : c ∈ (processKevent t ev).fired := by
  rcases processKevent_cases t ev with heq | ⟨pid, d, -, -, heq⟩
  · rw [heq]; exact h
  · rw [heq]; exact List.mem_cons_of_mem _ h

theorem processKevents_fired_mono (evs : List Kevent_t) (t : TrackerState) (c : Nat)
    (h : c ∈ t.fired) : c ∈ (processKevents t evs).fired := by
  induction evs generalizing t with
  | nil => exact h
  | cons ev rest ih => exact ih _ (processKevent_fired_mono t ev c h)

theorem processKevent_inv (t : TrackerState) (ev : Kevent_t) (pid : Int) (c : Nat)
    (h : trackerInv t pid c) : trackerInv (processKevent t ev) pid c := by
  unfold trackerInv at h ⊢
  rcases processKevent_cases t ev with heq | ⟨pid2, d, hcast, hl, heq⟩
  · rw [heq]; exact h
  · rw [heq]
    by_cases hp : pid2 = pid
    · subst hp
      rcases h with h | h
      · right
        have hdc : d = c := Option.some.inj (hl.symm.trans h)
        subst hdc
        exact List.mem_cons_self _ _
      · right; exact List.mem_cons_of_mem _ h
    · rcases h with h | h
      · left
        show lookupPID (removePID t.watchedPIDs pid2) pid = some c
        rw [lookupPID_removePID_ne t.watchedPIDs pid pid2 (fun he => hp he.symm)]
        exact h
      · right; exact List.mem_cons_of_mem _ h

theorem processKevents_inv (evs : List Kevent_t) (t : TrackerState) (pid : Int)
    (c : Nat) (h : trackerInv t pid c) : trackerInv (processKevents t evs) pid c := by
  induction evs generalizing t with
  | nil => exact h
  | cons ev rest ih => exact ih _ (processKevent_inv t ev pid c h)

theorem newWatcher_inv_preserved {s : TrackerState} {info : CallerInfo} {k : Bool}
    {w : WatcherState} {t : TrackerState}
    (hn : NewWatcher s info k = Except.ok (w, t)) (pid : Int) (c : Nat)
    (h : trackerInv s pid c) : trackerInv t pid c := by
  obtain ⟨-, -, -, -, hfired, hws⟩ := newWatcher_ok_inv hn
  unfold trackerInv at h ⊢
  rcases hws with hws | ⟨hnone, hws⟩
  · rw [hws, hfired]; exact h
  · rcases h with h | h
    · left
      rw [hws]
      have hne : info.PID ≠ pid := fun he => by rw [he, h] at hnone; cases hnone
      rw [lookupPID_cons_ne s.watchedPIDs info.PID pid w.done hne]
      exact h
    · right; rw [hfired]; exact h

theorem sysStep_inv (s : SysState) (op : SysOp) (pid : Int) (c : Nat)
    (h : trackerInv s.tracker pid c) : trackerInv (sysStep s op).tracker pid c := by
  cases op with
  | opNewWatcher info k =>
    simp only [sysStep]
    cases hn : NewWatcher s.tracker info k with
    | ok p =>
      obtain ⟨w, t⟩ := p
      exact newWatcher_inv_preserved hn pid c h
    | error e => exact h
  | opWatcherClose i => exact h
  | opKeventBatch evs => exact processKevents_inv evs s.tracker pid c h
  | opTrackerClose => exact h

theorem sysRun_inv (tr : List SysOp) (s : SysState) (pid : Int) (c : Nat)
    (h : trackerInv s.tracker pid c) : trackerInv (sysRun s tr).tracker pid c := by
  induction tr generalizing s with
  | nil => exact h
  | cons op ops ih => exact ih _ (sysStep_inv s op pid c h)

theorem sysStep_fired_mono (s : SysState) (op : SysOp) (c : Nat)
    (h : c ∈ s.tracker.fired) : c ∈ (sysStep s op).tracker.fired := by
  cases op with
  | opNewWatcher info k =>
    simp only [sysStep]
    cases hn : NewWatcher s.tracker info k with
    | ok p =>
      obtain ⟨w, t⟩ := p
      rw [(newWatcher_ok_inv hn).2.2.2.2.1]
      exact h
    | error e => exact h
  | opWatcherClose i => exact h
  | opKeventBatch evs => exact processKevents_fired_mono evs s.tracker c h
  | opTrackerClose => exact h

theorem sysRun_fired_mono (tr : List SysOp) (s : SysState) (c : Nat)
    (h : c ∈ s.tracker.fired) : c ∈ (sysRun s tr).tracker.fired := by
  induction tr generalizing s with
  | nil => exact h
  | cons op ops ih => exact ih _ (sysStep_fired_mono s op c h)

theorem processKevent_exit_fired (t : TrackerState) (ev : Kevent_t) (pid : Int)
    (c : Nat) (hex : isExitEventFor ev pid) (h : trackerInv t pid c) :
    c ∈ (processKevent t ev).fired := by
  obtain ⟨hf, hfl, hcast⟩ := hex
  unfold trackerInv at h
  rcases h with h | h
  · simp [processKevent, hf, hfl, hcast, h]
  · exact processKevent_fired_mono t ev c h

theorem processKevents_exit_fires (evs : List Kevent_t) (pid : Int) (c : Nat)
    (ev : Kevent_t) (hex : isExitEventFor ev pid) :
    ∀ t : TrackerState, ev ∈ evs → trackerInv t pid c →
      c ∈ (processKevents t evs).fired := by
  induction evs with
  | nil => intro t hmem _; cases hmem
  | cons e rest ih =>
    intro t hmem h
    rcases List.mem_cons.mp hmem with he | he
    · subst he
      exact processKevents_fired_mono rest _ c (processKevent_exit_fired t ev pid c hex h)
    · exact ih _ he (processKevent_inv t e pid c h)

theorem sysRun_append (s : SysState) (a b : List SysOp) :
    sysRun s (a ++ b) = sysRun (sysRun s a) b := by
  induction a generalizing s with
  | nil => rfl
  | cons op ops ih => exact ih (sysStep s op)

/-! ### Registry key uniqueness and entry lifecycle (C5) -/

theorem processKevent_keysNodup (t : TrackerState) (ev : Kevent_t)
    (h : keysNodup t.watchedPIDs) : keysNodup (processKevent t ev).watchedPIDs := by
  rcases processKevent_cases t ev with heq | ⟨pid, d, -, -, heq⟩
  · rw [heq]; exact h
  · rw [heq]
    exact List.Nodup.sublist (removePID_keys_sublist t.watchedPIDs pid) h

theorem processKevents_keysNodup (evs : List Kevent_t) (t : TrackerState)
    (h : keysNodup t.watchedPIDs) : keysNodup (processKevents t evs).watchedPIDs := by
  induction evs generalizing t with
  | nil => exact h
  | cons ev rest ih => exact ih _ (processKevent_keysNodup t ev h)

theorem newWatcher_keysNodup {s : TrackerState} {info : CallerInfo} {k : Bool}
    {w : WatcherState} {t : TrackerState}
    (hn : NewWatcher s info k = Except.ok (w, t))
    (h : keysNodup s.watchedPIDs) : keysNodup t.watchedPIDs := by
  rcases (newWatcher_ok_inv hn).2.2.2.2.2 with hws | ⟨hnone, hws⟩
  · rw [hws]; exact h
  · rw [hws]
    unfold keysNodup at h ⊢
    simp only [List.map_cons]
    exact List.nodup_cons.mpr ⟨(lookupPID_eq_none _ _).mp hnone, h⟩

theorem newWatcher_preserves_entry {s : TrackerState} {info : CallerInfo} {k : Bool}
    {w : WatcherState} {t : TrackerState}
    (hn : NewWatcher s info k = Except.ok (w, t)) (pid : Int) (c : Nat)
    (h : lookupPID s.watchedPIDs pid = some c) :
    lookupPID t.watchedPIDs pid = some c := by
  rcases (newWatcher_ok_inv hn).2.2.2.2.2 with hws | ⟨hnone, hws⟩
  · rw [hws]; exact h
  · rw [hws]
    have hne : info.PID ≠ pid := fun he => by rw [he, h] at hnone; cases hnone
    rw [lookupPID_cons_ne s.watchedPIDs info.PID pid w.done hne]
    exact h

theorem processKevent_none_preserved (t : TrackerState) (ev : Kevent_t) (pid : Int)
    (h : lookupPID t.watchedPIDs pid = none) :
    lookupPID (processKevent t ev).watchedPIDs pid = none := by
  rcases processKevent_cases t ev with heq | ⟨pid2, d, -, -, heq⟩
  · rw [heq]; exact h
  · rw [heq]
    show lookupPID (removePID t.watchedPIDs pid2) pid = none
    by_cases hp : pid = pid2
    · subst hp; exact lookupPID_removePID_self t.watchedPIDs pid
    · rw [lookupPID_removePID_ne t.watchedPIDs pid pid2 hp]; exact h

theorem processKevents_none_preserved (evs : List Kevent_t) (t : TrackerState)
    (pid : Int) (h : lookupPID t.watchedPIDs pid = none) :
    lookupPID (processKevents t evs).watchedPIDs pid = none := by
  induction evs generalizing t with
  | nil => exact h
  | cons ev rest ih => exact ih _ (processKevent_none_preserved t ev pid h)

/-- C5: the Registry holds at most one WatchEntry per PID (key uniqueness
is preserved by every operation); a Watcher's `Close` leaves the tracker
untouched; an entry appears only through a `NewWatcher` call for that
PID; an entry disappears only when a kevent batch is dispatched, and its
exit signal fires in the process; a well-formed exit event matching an
entry closes exactly that entry's signal and removes exactly that entry;
and no operation other than a kevent batch ever fires a signal. -/
theorem registry_invariant (s : SysState) (op : SysOp) :
    (keysNodup s.tracker.watchedPIDs → keysNodup (sysStep s op).tracker.watchedPIDs) ∧
    (∀ i, (sysStep s (SysOp.opWatcherClose i)).tracker = s.tracker) ∧
    (∀ pid, lookupPID s.tracker.watchedPIDs pid = none →
      lookupPID (sysStep s op).tracker.watchedPIDs pid ≠ none →
      ∃ info k, op = SysOp.opNewWatcher info k ∧ info.PID = pid) ∧
    (∀ pid c, lookupPID s.tracker.watchedPIDs pid = some c →
      lookupPID (sysStep s op).tracker.watchedPIDs pid = none →
      (∃ evs, op = SysOp.opKeventBatch evs) ∧ c ∈ (sysStep s op).tracker.fired) ∧
    (∀ (t : TrackerState) (ev : Kevent_t) (pid : Int) (c : Nat),
      isExitEventFor ev pid → lookupPID t.watchedPIDs pid = some c →
      processKevent t ev =
        { t with fired := c :: t.fired, watchedPIDs := removePID t.watchedPIDs pid }) ∧
    (∀ c, c ∈ (sysStep s op).tracker.fired →
      c ∈ s.tracker.fired ∨ ∃ evs, op = SysOp.opKeventBatch evs) := by
  refine ⟨?_, fun i => rfl, ?_, ?_, ?_, ?_⟩
  · -- key uniqueness is preserved
    intro h
    cases op with
    | opNewWatcher info k =>
      simp only [sysStep]
      cases hn : NewWatcher s.tracker info k with
      | ok p => obtain ⟨w, t⟩ := p; exact newWatcher_keysNodup hn h
      | error e => exact h
    | opWatcherClose i => exact h
    | opKeventBatch evs => exact processKevents_keysNodup evs s.tracker h
    | opTrackerClose => exact h
  · -- entries are created only by NewWatcher for that PID
    intro pid hnone hafter
    cases op with
    | opNewWatcher info k =>
      refine ⟨info, k, rfl, ?_⟩
      revert hafter
      simp only [sysStep]
      cases hn : NewWatcher s.tracker info k with
      | ok p =>
        obtain ⟨w, t⟩ := p
        intro hafter
        rcases (newWatcher_ok_inv hn).2.2.2.2.2 with hws | ⟨-, hws⟩
        · exact absurd (hws ▸ hnone) hafter
        · by_cases hip : info.PID = pid
          · exact hip
          · rw [hws, lookupPID_cons_ne s.tracker.watchedPIDs info.PID pid w.done hip]
              at hafter
            exact absurd hnone hafter
      | error e => intro hafter; exact absurd hnone hafter
    | opWatcherClose i => exact absurd hnone hafter
    | opKeventBatch evs =>
      exact absurd (processKevents_none_preserved evs s.tracker pid hnone) hafter
    | opTrackerClose => exact absurd hnone hafter
  · -- entries are removed only by a dispatched exit batch, which fires them
    intro pid c hsome hafter
    cases op with
    | opNewWatcher info k =>
      revert hafter
      simp only [sysStep]
      cases hn : NewWatcher s.tracker info k with
      | ok p =>
        obtain ⟨w, t⟩ := p
        intro hafter
        rw [newWatcher_preserves_entry hn pid c hsome] at hafter
        cases hafter
      | error e =>
        intro hafter
        rw [hsome] at hafter
        cases hafter
    | opWatcherClose i =>
      have h2 : lookupPID s.tracker.watchedPIDs pid = none := hafter
      rw [hsome] at h2
      cases h2
    | opKeventBatch evs =>
      refine ⟨⟨evs, rfl⟩, ?_⟩
      have hinv : trackerInv (processKevents s.tracker evs) pid c :=
        processKevents_inv evs s.tracker pid c (Or.inl hsome)
      rcases hinv with h | h
      · have h2 : lookupPID (processKevents s.tracker evs).watchedPIDs pid = none := hafter
        rw [h] at h2
        cases h2
      · exact h
    | opTrackerClose =>
      have h2 : lookupPID s.tracker.watchedPIDs pid = none := hafter
      rw [hsome] at h2
      cases h2
  · -- a matching exit event fires the entry's signal and removes the entry
    intro t ev pid c hex hl
    obtain ⟨hf, hfl, hcast⟩ := hex
    simp [processKevent, hf, hfl, hcast, hl]
  · -- only a dispatched batch fires signals
    intro c hc
    cases op with
    | opNewWatcher info k =>
      left
      revert hc
      simp only [sysStep]
      cases hn : NewWatcher s.tracker info k with
      | ok p =>
        obtain ⟨w, t⟩ := p
        rw [(newWatcher_ok_inv hn).2.2.2.2.1]
        exact id
      | error e => exact id
    | opWatcherClose i => exact Or.inl hc
    | opKeventBatch evs => exact Or.inr ⟨evs, rfl⟩
    | opTrackerClose => exact Or.inl hc

/-- A system state with one registered watch for PID 5, used to evaluate
the theorems on concrete input. -/
def sampleSys : SysState :=
  { tracker := { ctxCancelled := false, watchedPIDs := [(5, 0)], nextSignal := 1,
                 fired := [], kernelRegs := 1 },
    watchers := [] }

/-- A well-formed `NOTE_EXIT` kevent for PID 5. -/
def sampleExitEvent : Kevent_t :=
  { Ident := 5, Filter := -5, Fflags := 2147483648 }

theorem registry_invariant_witness :
    (∃ evs, SysOp.opKeventBatch [sampleExitEvent] = SysOp.opKeventBatch evs) ∧
    0 ∈ (sysStep sampleSys (SysOp.opKeventBatch [sampleExitEvent])).tracker.fired :=
  (registry_invariant sampleSys
    (SysOp.opKeventBatch [sampleExitEvent])).2.2.2.1 5 0
    (by simp [sampleSys, lookupPID])
    (by simp [sysStep, sampleSys, sampleExitEvent, processKevents, processKevent,
      checkedCastInt, lookupPID, removePID, NOTE_EXIT, EVFILT_PROC])

/-! ### Exit observed between NewWatcher and the IsAlive check (C7) -/

/-- C7: if, after `NewWatcher` succeeds for a PID and before the
`IsAlive` check runs, the dispatch loop observes a well-formed exit event
for that PID (in any trace: any operations before and after the batch
carrying the event), then that `IsAlive` call sleeps for the safety delay
and returns `CallerExitedError`. -/
theorem isAlive_after_observed_exit (t0 : TrackerState) (info : CallerInfo) (k : Bool)
    (w : WatcherState) (t1 : TrackerState) (ws : List WatcherState)
    (tr1 tr2 : List SysOp) (evs : List Kevent_t) (ev : Kevent_t)
    (hnew : NewWatcher t0 info k = Except.ok (w, t1))
    (hev : ev ∈ evs) (hexit : isExitEventFor ev info.PID) :
    IsAlive w (sysRun { tracker := t1, watchers := ws }
        (tr1 ++ SysOp.opKeventBatch evs :: tr2)).tracker.fired =
      { sleptMillis := safetyDelayMillis, result := some PTError.callerExited } := by
  obtain ⟨hcl, -, hlook, -, -, -⟩ := newWatcher_ok_inv hnew
  have hinv2 : trackerInv
      (sysRun { tracker := t1, watchers := ws } tr1).tracker info.PID w.done :=
    sysRun_inv tr1 _ _ _ (Or.inl hlook)
  have hfired : w.done ∈ (sysStep (sysRun { tracker := t1, watchers := ws } tr1)
      (SysOp.opKeventBatch evs)).tracker.fired :=
    processKevents_exit_fires evs info.PID w.done ev hexit _ hev hinv2
  have hfinal : w.done ∈ (sysRun { tracker := t1, watchers := ws }
      (tr1 ++ SysOp.opKeventBatch evs :: tr2)).tracker.fired := by
    rw [sysRun_append]
    exact sysRun_fired_mono tr2 _ _ hfired
  simp [IsAlive, hcl, hfinal]

theorem isAlive_after_observed_exit_witness :
    IsAlive { closed := false, done := 0, pid := 5 }
      (sysRun { tracker := sampleSys.tracker, watchers := [] }
        ([] ++ SysOp.opKeventBatch [sampleExitEvent] :: [])).tracker.fired =
      { sleptMillis := safetyDelayMillis, result := some PTError.callerExited } :=
  isAlive_after_observed_exit newTracker { PID := 5 } true
    { closed := false, done := 0, pid := 5 } sampleSys.tracker [] [] []
    [sampleExitEvent] sampleExitEvent
    (by simp [NewWatcher, newTracker, lookupPID, newBSDWatcher, sampleSys])
    (by simp)
    (by simp [isExitEventFor, sampleExitEvent, EVFILT_PROC, NOTE_EXIT, checkedCastInt])
